import Mathlib

/-!
Shallow embedding of the `kigland/eyes-gen` layout tool (src/src/App.tsx).

The app's state is a pair of image lists (left/right eye), a paper-size
selection, and a DPI number.  The handlers `handleImageUpload`,
`handleRemoveImage`, `handleSizeChange`, the DPI `onChange` expression and
the grid-cell mapping of the render loop are translated below.  JavaScript
numbers are modelled as `ℚ` (dimension values) and `ℤ` (DPI); `parseInt` /
`parseFloat` are modelled as decimal parsers returning `Option` (the `none`
case standing for `NaN`).
-/

/-- Side of the image set: `'left' | 'right'` in the source. -/
inductive Eye where
  | left
  | right
deriving DecidableEq, Repr

/-- The opposite side. -/
def Eye.other : Eye → Eye
  | .left => .right
  | .right => .left

/-- Which dimension a size edit targets: `'width' | 'height'`. -/
inductive Dimension where
  | width
  | height
deriving DecidableEq, Repr

/-- `interface ImageConfig { url: string; width: number; height: number }`. -/
structure ImageConfig where
  url : String
  width : ℚ
  height : ℚ
deriving DecidableEq, Repr

/-- `interface ImageState { left: ImageConfig[]; right: ImageConfig[] }`. -/
structure ImageState where
  left : List ImageConfig
  right : List ImageConfig
deriving DecidableEq, Repr

/-- Dynamic access `prev[eye]`. -/
def ImageState.side : ImageState → Eye → List ImageConfig
  | st, .left => st.left
  | st, .right => st.right

/-- The spread update `{ ...prev, [eye]: f (prev[eye]) }`. -/
def ImageState.update : ImageState → Eye → (List ImageConfig → List ImageConfig) → ImageState
  | st, .left, f => { st with left := f st.left }
  | st, .right, f => { st with right := f st.right }

/-- `type PaperSize = 'A4' | 'A5'`. -/
inductive PaperSize where
  | A4
  | A5
deriving DecidableEq, Repr

/-- The string value of the paper-size enum (it is a string literal in TS). -/
def PaperSize.str : PaperSize → String
  | .A4 => "A4"
  | .A5 => "A5"

/-- `interface PaperConfig { width; height; gridRows }` (all in mm / rows). -/
structure PaperConfig where
  width : ℕ
  height : ℕ
  gridRows : ℕ
deriving DecidableEq, Repr

/-- `const PAPER_CONFIGS = { A4: {210, 297, 4}, A5: {148, 210, 2} }`. -/
def PAPER_CONFIGS : PaperSize → PaperConfig
  | .A4 => { width := 210, height := 297, gridRows := 4 }
  | .A5 => { width := 148, height := 210, gridRows := 2 }

/-! ### Decimal models of the JavaScript number parsers

`parseInt` / `parseFloat` trim leading whitespace, accept an optional sign
and then read the longest digit prefix (for `parseFloat`, with an optional
fractional part).  The exotic branches never produced by the app's
`<input type="number">` fields (hex prefixes for `parseInt`, exponent
notation and `Infinity` for `parseFloat`) are not modelled. -/

/-- Longest digit prefix of a character list. -/
def leadingDigits (cs : List Char) : List Char := cs.takeWhile Char.isDigit

/-- Value of a digit string, most significant first. -/
def digitsToNat (ds : List Char) : ℕ :=
  ds.foldl (fun acc c => 10 * acc + (c.toNat - 48)) 0

/-- Unsigned part of `parseInt`: `none` models `NaN` (no digits at all). -/
def parseIntNat (cs : List Char) : Option ℕ :=
  let ds := leadingDigits cs
  if ds.isEmpty then none else some (digitsToNat ds)

/-- Model of JavaScript `parseInt(s)` on decimal input. -/
def parseIntJs (s : String) : Option ℤ :=
  match s.toList.dropWhile Char.isWhitespace with
  | '-' :: cs => (parseIntNat cs).map (fun n => -(n : ℤ))
  | '+' :: cs => (parseIntNat cs).map (fun n => (n : ℤ))
  | cs => (parseIntNat cs).map (fun n => (n : ℤ))

/-- Unsigned part of `parseFloat`: integer digits with an optional
fractional part; at least one digit is required overall. -/
def parseFloatNonneg (cs : List Char) : Option ℚ :=
  let intDs := leadingDigits cs
  match cs.drop intDs.length with
  | '.' :: cs2 =>
    let fracDs := leadingDigits cs2
    if intDs.isEmpty && fracDs.isEmpty then none
    else some ((digitsToNat intDs : ℚ) + (digitsToNat fracDs : ℚ) / (10 : ℚ) ^ fracDs.length)
  | _ => if intDs.isEmpty then none else some (digitsToNat intDs : ℚ)

/-- Model of JavaScript `parseFloat(s)` on decimal input. -/
def parseFloatJs (s : String) : Option ℚ :=
  match s.toList.dropWhile Char.isWhitespace with
  | '-' :: cs => (parseFloatNonneg cs).map (fun q => -q)
  | '+' :: cs => parseFloatNonneg cs
  | cs => parseFloatNonneg cs

/-! ### Image Record Store handlers -/

/-- A member of the file input's `FileList`: only the declared media type
and an abstract handle to the contents matter here. -/
structure JsFile where
  type : String
  data : String
deriving DecidableEq, Repr

/-- `handleImageUpload(eye, e)` together with the completion of its
`FileReader` callback.  `files` is `e.target.files` (empty list for a null
file list), `decode` models `readAsDataURL` delivering `e.target?.result`
(`none` when the result is absent).  The handler looks only at
`files?.[0]`, ignores anything whose declared type is not exactly
`image/png`, and on successful decode appends a 25×25 mm record. -/
def handleImageUpload (eye : Eye) (files : List JsFile)
    (decode : JsFile → Option String) (st : ImageState) : ImageState :=
  match files.head? with
  | none => st
  | some file =>
    if file.type ≠ "image/png" then st
    else
      match decode file with
      | none => st
      | some result =>
        st.update eye (fun l => l ++ [{ url := result, width := 25, height := 25 }])

/-- JavaScript `Array.prototype.filter` with the element index, the index
counter starting at `k`: keeps the elements whose index differs from
`index`. -/
def jsFilterIdxFrom (index : ℕ) (k : ℕ) : List ImageConfig → List ImageConfig
  | [] => []
  | x :: xs =>
    if k ≠ index then x :: jsFilterIdxFrom index (k + 1) xs
    else jsFilterIdxFrom index (k + 1) xs

/-- `handleRemoveImage(eye, index)`:
`prev[eye].filter((_, i) => i !== index)`. -/
def handleRemoveImage (eye : Eye) (index : ℕ) (st : ImageState) : ImageState :=
  st.update eye (fun l => jsFilterIdxFrom index 0 l)

/-- The spread `{ ...img, [dimension]: numValue }`. -/
def setDim (d : Dimension) (v : ℚ) (img : ImageConfig) : ImageConfig :=
  match d with
  | .width => { img with width := v }
  | .height => { img with height := v }

/-- JavaScript `Array.prototype.map` with the element index, the index
counter starting at `k`. -/
def jsMapIdxFrom (f : ℕ → ImageConfig → ImageConfig) (k : ℕ) :
    List ImageConfig → List ImageConfig
  | [] => []
  | x :: xs => f k x :: jsMapIdxFrom f (k + 1) xs

/-- `handleSizeChange(eye, index, dimension, value)`: parse the value,
return unchanged on `NaN` or a non-positive number, otherwise overwrite the
named dimension of the record at `index`. -/
def handleSizeChange (eye : Eye) (index : ℕ) (d : Dimension) (value : String)
    (st : ImageState) : ImageState :=
  match parseFloatJs value with
  | none => st
  | some numValue =>
    if numValue ≤ 0 then st
    else
      st.update eye
        (jsMapIdxFrom (fun i img => if i = index then setDim d numValue img else img) 0)

/-! ### DPI configuration -/

/-- JavaScript `x || d` on a number: `NaN` (modelled `none`) and `0` are
falsy and give the default. -/
def jsOrDefault (v : Option ℤ) (d : ℤ) : ℤ :=
  match v with
  | none => d
  | some n => if n = 0 then d else n

/-- The DPI input's `onChange` expression:
`Math.max(72, Math.min(1200, parseInt(e.target.value) || 300))`. -/
def setDpiValue (v : String) : ℤ :=
  max 72 (min 1200 (jsOrDefault (parseIntJs v) 300))

/-! ### Grid Layout Engine -/

/-- The body of the grid-cell render loop for one cell `index`:
`isLeftPosition = index % 2 === 0`, `images = isLeftPosition ? leftImages :
rightImages`, `imageIndex = Math.floor(index / 2) % images.length`,
`image = images[imageIndex]`.  When `images.length = 0` the JS modulus is
`NaN` and `images[NaN]` is `undefined`, so the cell renders empty: that is
the `none` branch. -/
def cellImage (st : ImageState) (index : ℕ) : Option ImageConfig :=
  let images := if index % 2 = 0 then st.left else st.right
  if images.length = 0 then none
  else images.get? ((index / 2) % images.length)

/-- The grid: `Array(paperConfig.gridRows * 2).fill(null).map((_, index) => …)`. -/
def layout (paper : PaperConfig) (st : ImageState) : List (Option ImageConfig) :=
  (List.range (paper.gridRows * 2)).map (cellImage st)

/-! ### Export adapter -/

/-- The deterministic payload of `handleGeneratePNG`: the rasterization
scale and the download filename. -/
structure PngExportResult where
  filename : String
  scale : ℚ
deriving DecidableEq, Repr

/-- `handleGeneratePNG`: `scale = dpi / 96` and
``link.download = `print-${paperSize}-${dpi}dpi.png` ``. -/
def handleGeneratePNG (paperSize : PaperSize) (dpi : ℤ) : PngExportResult :=
  { filename := "print-" ++ paperSize.str ++ "-" ++ toString dpi ++ "dpi.png"
    scale := (dpi : ℚ) / 96 }

/-! ### Reachable states -/

/-- One Image Record Store mutation: an upload completion, a removal, or a
size edit. -/
inductive Op where
  | upload (eye : Eye) (files : List JsFile) (decode : JsFile → Option String)
  | removeImg (eye : Eye) (index : ℕ)
  | sizeChange (eye : Eye) (index : ℕ) (d : Dimension) (value : String)

/-- Apply one operation to the state. -/
def applyOp (st : ImageState) : Op → ImageState
  | .upload eye files decode => handleImageUpload eye files decode st
  | .removeImg eye index => handleRemoveImage eye index st
  | .sizeChange eye index d v => handleSizeChange eye index d v st

/-- `useState<ImageState>({ left: [], right: [] })`. -/
def initialImages : ImageState := { left := [], right := [] }

/-- The state after a sequence of operations from the initial state. -/
def runOps (ops : List Op) : ImageState := ops.foldl applyOp initialImages

/-- Every record on both sides has strictly positive dimensions. -/
def positiveDims (st : ImageState) : Prop :=
  (∀ img ∈ st.left, 0 < img.width ∧ 0 < img.height) ∧
  (∀ img ∈ st.right, 0 < img.width ∧ 0 < img.height)

/-- A concrete state used to instantiate the universally quantified
theorems below. -/
def sampleState : ImageState :=
  { left := [{ url := "a", width := 25, height := 25 },
             { url := "b", width := 10, height := 20 }],
    right := [{ url := "c", width := 3, height := 4 }] }

/-! ## Helper lemmas -/

theorem Eye.other_ne (e : Eye) : e.other ≠ e := by
  cases e <;> simp [Eye.other]

theorem ImageState.side_update_same (st : ImageState) (eye : Eye)
    (f : List ImageConfig → List ImageConfig) :
    (st.update eye f).side eye = f (st.side eye) := by
  cases eye <;> rfl

theorem ImageState.side_update_other (st : ImageState) (eye e : Eye)
    (f : List ImageConfig → List ImageConfig) (h : e ≠ eye) :
    (st.update eye f).side e = st.side e := by
  cases eye <;> cases e <;> first | rfl | exact absurd rfl h

theorem ImageState.update_eq_self (st : ImageState) (eye : Eye)
    (f : List ImageConfig → List ImageConfig) (h : f (st.side eye) = st.side eye) :
    st.update eye f = st := by
  cases st; cases eye <;> simp_all [ImageState.update, ImageState.side]

theorem jsMapIdxFrom_length (f : ℕ → ImageConfig → ImageConfig) (k : ℕ)
    (l : List ImageConfig) : (jsMapIdxFrom f k l).length = l.length := by
  induction l generalizing k with
  | nil => rfl
  | cons x xs ih => simp [jsMapIdxFrom, ih]

theorem jsMapIdxFrom_get? (f : ℕ → ImageConfig → ImageConfig) (k j : ℕ)
    (l : List ImageConfig) :
    (jsMapIdxFrom f k l).get? j = (l.get? j).map (f (k + j)) := by
  induction l generalizing k j with
  | nil => simp [jsMapIdxFrom]
  | cons x xs ih =>
    cases j with
    | zero => simp [jsMapIdxFrom]
    | succ j =>
      simp only [jsMapIdxFrom, List.get?_cons_succ, ih (k + 1) j]
      rw [show k + 1 + j = k + (j + 1) by omega]

theorem jsMapIdxFrom_mem (f : ℕ → ImageConfig → ImageConfig) (k : ℕ)
    (l : List ImageConfig) (x : ImageConfig) (hx : x ∈ jsMapIdxFrom f k l) :
    ∃ i y, y ∈ l ∧ x = f i y := by
  induction l generalizing k with
  | nil => simp [jsMapIdxFrom] at hx
  | cons a as ih =>
    simp only [jsMapIdxFrom, List.mem_cons] at hx
    rcases hx with h | h
    · exact ⟨k, a, List.mem_cons_self a as, h⟩
    · obtain ⟨i, y, hy, hxy⟩ := ih (k + 1) h
      exact ⟨i, y, List.mem_cons_of_mem a hy, hxy⟩

theorem jsMapIdxFrom_sentinel_id (index k : ℕ) (g : ImageConfig → ImageConfig)
    (l : List ImageConfig) (h : k + l.length ≤ index) :
    jsMapIdxFrom (fun i img => if i = index then g img else img) k l = l := by
  induction l generalizing k with
  | nil => rfl
  | cons x xs ih =>
    have hk : k ≠ index := by simp at h; omega
    simp only [jsMapIdxFrom, hk, if_false]
    rw [ih (k + 1) (by simp at h ⊢; omega)]

theorem jsFilterIdxFrom_of_lt (index k : ℕ) (l : List ImageConfig)
    (h : index < k) : jsFilterIdxFrom index k l = l := by
  induction l generalizing k with
  | nil => rfl
  | cons x xs ih =>
    have hk : k ≠ index := by omega
    rw [jsFilterIdxFrom, if_pos hk, ih (k + 1) (by omega)]

theorem jsFilterIdxFrom_eq_take_drop (i k : ℕ) (l : List ImageConfig) :
    jsFilterIdxFrom (k + i) k l = l.take i ++ l.drop (i + 1) := by
  induction l generalizing k i with
  | nil => simp [jsFilterIdxFrom]
  | cons x xs ih =>
    cases i with
    | zero =>
      rw [jsFilterIdxFrom, if_neg (by omega)]
      rw [jsFilterIdxFrom_of_lt (k + 0) (k + 1) xs (by omega)]
      simp
    | succ i =>
      have hk : k ≠ k + (i + 1) := by omega
      rw [jsFilterIdxFrom, if_pos hk]
      rw [show k + (i + 1) = (k + 1) + i by omega, ih i (k + 1)]
      simp

theorem jsFilterIdxFrom_of_ge (index k : ℕ) (l : List ImageConfig)
    (h : k + l.length ≤ index) : jsFilterIdxFrom index k l = l := by
  induction l generalizing k with
  | nil => rfl
  | cons x xs ih =>
    have hk : k ≠ index := by simp at h; omega
    rw [jsFilterIdxFrom, if_pos hk, ih (k + 1) (by simp at h ⊢; omega)]

theorem jsFilterIdxFrom_mem (index k : ℕ) (l : List ImageConfig)
    (x : ImageConfig) (hx : x ∈ jsFilterIdxFrom index k l) : x ∈ l := by
  induction l generalizing k with
  | nil => simp [jsFilterIdxFrom] at hx
  | cons a as ih =>
    by_cases h : k ≠ index
    · rw [jsFilterIdxFrom, if_pos h, List.mem_cons] at hx
      rcases hx with h' | h'
      · simp [h']
      · exact List.mem_cons_of_mem a (ih (k + 1) h')
    · rw [jsFilterIdxFrom, if_neg h] at hx
      exact List.mem_cons_of_mem a (ih (k + 1) hx)

theorem handleSizeChange_reject (eye : Eye) (i : ℕ) (d : Dimension) (v : String)
    (st : ImageState)
    (h : parseFloatJs v = none ∨ ∃ q, parseFloatJs v = some q ∧ q ≤ 0) :
    handleSizeChange eye i d v st = st := by
  unfold handleSizeChange
  rcases h with h | ⟨q, hq, hle⟩
  · rw [h]
  · rw [hq]
    simp [hle]

theorem handleSizeChange_success (eye : Eye) (i : ℕ) (d : Dimension) (v : String)
    (st : ImageState) (q : ℚ) (hp : parseFloatJs v = some q) (hq : 0 < q) :
    handleSizeChange eye i d v st
      = st.update eye
          (jsMapIdxFrom (fun j img => if j = i then setDim d q img else img) 0) := by
  unfold handleSizeChange
  rw [hp]
  simp [not_le.mpr hq]

theorem handleSizeChange_oob (eye : Eye) (i : ℕ) (d : Dimension) (v : String)
    (st : ImageState) (h : (st.side eye).length ≤ i) :
    handleSizeChange eye i d v st = st := by
  cases hp : parseFloatJs v with
  | none => exact handleSizeChange_reject eye i d v st (Or.inl hp)
  | some q =>
    by_cases hq : q ≤ 0
    · exact handleSizeChange_reject eye i d v st (Or.inr ⟨q, hp, hq⟩)
    · rw [handleSizeChange_success eye i d v st q hp (not_le.mp hq)]
      exact ImageState.update_eq_self st eye _
        (jsMapIdxFrom_sentinel_id i 0 (setDim d q) (st.side eye) (by omega))

theorem handleImageUpload_nil (eye : Eye) (decode : JsFile → Option String)
    (st : ImageState) : handleImageUpload eye [] decode st = st := rfl

theorem handleImageUpload_cons (eye : Eye) (f : JsFile) (fs : List JsFile)
    (decode : JsFile → Option String) (st : ImageState) :
    handleImageUpload eye (f :: fs) decode st
      = if f.type ≠ "image/png" then st
        else
          match decode f with
          | none => st
          | some result =>
            st.update eye (fun l => l ++ [{ url := result, width := 25, height := 25 }]) := rfl

theorem handleImageUpload_side_cases (eye : Eye) (files : List JsFile)
    (decode : JsFile → Option String) (st : ImageState) (e : Eye) :
    (handleImageUpload eye files decode st).side e = st.side e ∨
    ∃ r, e = eye ∧ (handleImageUpload eye files decode st).side e
        = st.side e ++ [{ url := r, width := 25, height := 25 }] := by
  cases files with
  | nil => exact Or.inl rfl
  | cons f fs =>
    rw [handleImageUpload_cons]
    by_cases ht : f.type ≠ "image/png"
    · rw [if_pos ht]
      exact Or.inl rfl
    · rw [if_neg ht]
      cases decode f with
      | none => exact Or.inl rfl
      | some r =>
        by_cases he : e = eye
        · subst he
          exact Or.inr ⟨r, rfl, ImageState.side_update_same st e _⟩
        · exact Or.inl (ImageState.side_update_other st eye e _ he)

theorem positiveDims_side (st : ImageState) (h : positiveDims st) (e : Eye) :
    ∀ img ∈ st.side e, 0 < img.width ∧ 0 < img.height := by
  cases e
  · exact h.1
  · exact h.2

theorem positiveDims_of_sides (st : ImageState)
    (h : ∀ e : Eye, ∀ img ∈ st.side e, 0 < img.width ∧ 0 < img.height) :
    positiveDims st :=
  ⟨h .left, h .right⟩

theorem handleImageUpload_posDims (eye : Eye) (files : List JsFile)
    (decode : JsFile → Option String) (st : ImageState) (h : positiveDims st) :
    positiveDims (handleImageUpload eye files decode st) := by
  apply positiveDims_of_sides
  intro e img hm
  rcases handleImageUpload_side_cases eye files decode st e with hc | ⟨r, _, hc⟩
  · rw [hc] at hm
    exact positiveDims_side st h e img hm
  · rw [hc] at hm
    rcases List.mem_append.mp hm with hm | hm
    · exact positiveDims_side st h e img hm
    · simp only [List.mem_singleton] at hm
      subst hm
      exact ⟨by norm_num, by norm_num⟩

theorem handleRemoveImage_posDims (eye : Eye) (index : ℕ) (st : ImageState)
    (h : positiveDims st) : positiveDims (handleRemoveImage eye index st) := by
  apply positiveDims_of_sides
  intro e img hm
  unfold handleRemoveImage at hm
  by_cases he : e = eye
  · subst he
    rw [ImageState.side_update_same] at hm
    exact positiveDims_side st h e img (jsFilterIdxFrom_mem index 0 _ img hm)
  · rw [ImageState.side_update_other st eye e _ he] at hm
    exact positiveDims_side st h e img hm

theorem setDim_posDims (d : Dimension) (q : ℚ) (img : ImageConfig) (hq : 0 < q)
    (h : 0 < img.width ∧ 0 < img.height) :
    0 < (setDim d q img).width ∧ 0 < (setDim d q img).height := by
  cases d
  · exact ⟨hq, h.2⟩
  · exact ⟨h.1, hq⟩

theorem handleSizeChange_posDims (eye : Eye) (i : ℕ) (d : Dimension) (v : String)
    (st : ImageState) (h : positiveDims st) :
    positiveDims (handleSizeChange eye i d v st) := by
  cases hp : parseFloatJs v with
  | none =>
    rw [handleSizeChange_reject eye i d v st (Or.inl hp)]
    exact h
  | some q =>
    by_cases hq : q ≤ 0
    · rw [handleSizeChange_reject eye i d v st (Or.inr ⟨q, hp, hq⟩)]
      exact h
    · rw [handleSizeChange_success eye i d v st q hp (not_le.mp hq)]
      apply positiveDims_of_sides
      intro e img hm
      by_cases he : e = eye
      · subst he
        rw [ImageState.side_update_same] at hm
        obtain ⟨j, y, hy, rfl⟩ := jsMapIdxFrom_mem _ 0 _ img hm
        by_cases hj : j = i
        · rw [if_pos hj]
          exact setDim_posDims d q y (not_le.mp hq) (positiveDims_side st h _ y hy)
        · rw [if_neg hj]
          exact positiveDims_side st h _ y hy
      · rw [ImageState.side_update_other st eye e _ he] at hm
        exact positiveDims_side st h e img hm

theorem applyOp_posDims (st : ImageState) (op : Op) (h : positiveDims st) :
    positiveDims (applyOp st op) := by
  cases op with
  | upload eye files decode => exact handleImageUpload_posDims eye files decode st h
  | removeImg eye index => exact handleRemoveImage_posDims eye index st h
  | sizeChange eye index d v => exact handleSizeChange_posDims eye index d v st h

theorem foldl_posDims (ops : List Op) (st : ImageState) (h : positiveDims st) :
    positiveDims (ops.foldl applyOp st) := by
  induction ops generalizing st with
  | nil => exact h
  | cons op ops ih => exact ih (applyOp st op) (applyOp_posDims st op h)

theorem initialImages_posDims : positiveDims initialImages := by
  constructor <;> intro img hm <;> simp [initialImages] at hm

/-! ## Claims -/

/-- C1: for every paper configuration, image set and cell index `i` of the
layout, the cell's side is left when `i` is even and right when `i` is odd
(the `side` equation below); when that side's list has length `n > 0` the
cell holds the image at index `⌊i / 2⌋ % n` of the list, and when `n = 0`
the cell is empty. -/
theorem c1_cell_assignment (paper : PaperConfig) (st : ImageState) (i : ℕ)
    (h : i < paper.gridRows * 2) :
    ∀ side : List ImageConfig, side = (if i % 2 = 0 then st.left else st.right) →
      (layout paper st).get? i = some (cellImage st i) ∧
      (side.length = 0 → cellImage st i = none) ∧
      (∀ hn : 0 < side.length,
        cellImage st i = some (side.get ⟨(i / 2) % side.length, Nat.mod_lt _ hn⟩)) := by
  intro side hside
  refine ⟨?_, ?_, ?_⟩
  · unfold layout
    rw [List.get?_map, List.get?_range h]
    rfl
  · intro h0
    simp only [cellImage, ← hside]
    rw [if_pos h0]
  · intro hn
    simp only [cellImage, ← hside]
    rw [if_neg (Nat.pos_iff_ne_zero.mp hn), List.get?_eq_get (Nat.mod_lt _ hn)]

/-- Witness for C1 at the A4 preset, `sampleState` and cell 2 (an even,
hence left-side, cell). -/
theorem c1_cell_assignment_witness :
    (layout (PAPER_CONFIGS PaperSize.A4) sampleState).get? 2
        = some (cellImage sampleState 2) ∧
    (sampleState.left.length = 0 → cellImage sampleState 2 = none) ∧
    (∀ hn : 0 < sampleState.left.length,
      cellImage sampleState 2
        = some (sampleState.left.get ⟨(2 / 2) % sampleState.left.length, Nat.mod_lt _ hn⟩)) :=
  c1_cell_assignment (PAPER_CONFIGS PaperSize.A4) sampleState 2 (by decide)
    sampleState.left (by decide)

/-- C2: the layout always produces exactly `gridRows * 2` cells; 8 for the
A4 preset and 4 for the A5 preset, whatever the image set (both sides may
be empty). -/
theorem c2_layout_cell_count (paper : PaperConfig) (st : ImageState) :
    (layout paper st).length = paper.gridRows * 2 ∧
    (layout (PAPER_CONFIGS PaperSize.A4) st).length = 8 ∧
    (layout (PAPER_CONFIGS PaperSize.A5) st).length = 4 := by
  refine ⟨?_, ?_, ?_⟩ <;> simp [layout, PAPER_CONFIGS]

/-- C3 counterexample: the claim says a successful parse is clamped into
`[72, 1200]`, so `setDpi("0")` would give 72; but `parseInt("0") || 300`
takes the `|| 300` branch on the falsy value `0`, so the code yields 300. -/
theorem c3_dpi_counterexample :
    parseIntJs "0" = some 0 ∧
    setDpiValue "0" = 300 ∧
    max 72 (min 1200 (0 : ℤ)) = 72 ∧
    (300 : ℤ) ≠ 72 :=
  ⟨by decide, by decide, by decide, by decide⟩

/-- C3 amended: `setDpi(v)` parses `v` as an integer; if the parse fails
or the parsed value is `0` (both falsy in `parseInt(v) || 300`) the
resulting DPI is 300; otherwise it is the parsed value clamped into
`[72, 1200]`.  In particular `setDpi("50") = 72`, `setDpi("5000") = 1200`
and `setDpi("abc") = 300`. -/
theorem c3_dpi_amended (v : String) :
    ((parseIntJs v = none ∨ parseIntJs v = some 0) → setDpiValue v = 300) ∧
    (∀ n : ℤ, parseIntJs v = some n → n ≠ 0 →
      setDpiValue v = max 72 (min 1200 n)) ∧
    setDpiValue "50" = 72 ∧ setDpiValue "5000" = 1200 ∧ setDpiValue "abc" = 300 := by
  refine ⟨?_, ?_, by decide, by decide, by decide⟩
  · rintro (h | h) <;> simp only [setDpiValue, jsOrDefault, h] <;> decide
  · intro n hn hn0
    simp only [setDpiValue, jsOrDefault, hn, if_neg hn0]

/-- Witness for C3 (amended) at the parseable nonzero input `"5000"`. -/
theorem c3_dpi_witness :
    parseIntJs "5000" = some 5000 ∧
    setDpiValue "5000" = max 72 (min 1200 (5000 : ℤ)) :=
  ⟨by decide, (c3_dpi_amended "5000").2.1 5000 (by decide) (by decide)⟩

/-- C4: every state reachable from the initial empty state by
upload-completion, remove and resize operations has strictly positive
width and height on every record of both sides; and a resize whose value
fails to parse or is non-positive leaves the state (hence the prior
value) in place. -/
theorem c4_positive_dims_invariant :
    (∀ ops : List Op, positiveDims (runOps ops)) ∧
    (∀ (s : Eye) (i : ℕ) (d : Dimension) (v : String) (st : ImageState),
      (parseFloatJs v = none ∨ ∃ q, parseFloatJs v = some q ∧ q ≤ 0) →
      handleSizeChange s i d v st = st) :=
  ⟨fun ops => foldl_posDims ops initialImages initialImages_posDims,
   fun s i d v st h => handleSizeChange_reject s i d v st h⟩

/-- Witness for C4: a concrete operation sequence, and a rejected resize
on a concrete state. -/
theorem c4_positive_dims_invariant_witness :
    positiveDims (runOps
      [Op.upload Eye.left [{ type := "image/png", data := "f" }] (fun _ => some "u"),
       Op.sizeChange Eye.left 0 Dimension.width "40"]) ∧
    handleSizeChange Eye.left 0 Dimension.width "-5" sampleState = sampleState :=
  ⟨c4_positive_dims_invariant.1 _,
   c4_positive_dims_invariant.2 Eye.left 0 Dimension.width "-5" sampleState
     (Or.inr ⟨-5, by decide, by decide⟩)⟩

/-- C5: a resize with a parseable positive value sets exactly the named
dimension of the record at the given in-bounds index (the record's URL and
other dimension are kept, as the `setDim` equations state), leaves every
other record of that side unchanged, and leaves the other side's whole
list unchanged; with an unparseable or non-positive value the entire state
is unchanged. -/
theorem c5_resize_frame (s : Eye) (i : ℕ) (d : Dimension) (v : String)
    (st : ImageState) :
    (∀ q : ℚ, parseFloatJs v = some q → 0 < q →
      ((∀ h : i < (st.side s).length,
          ((handleSizeChange s i d v st).side s).get? i
            = some (setDim d q ((st.side s).get ⟨i, h⟩))) ∧
       (∀ img : ImageConfig, (setDim d q img).url = img.url) ∧
       (∀ img : ImageConfig, setDim Dimension.width q img = { img with width := q }) ∧
       (∀ img : ImageConfig, setDim Dimension.height q img = { img with height := q }) ∧
       (∀ j : ℕ, j ≠ i →
          ((handleSizeChange s i d v st).side s).get? j = (st.side s).get? j) ∧
       (handleSizeChange s i d v st).side s.other = st.side s.other)) ∧
    ((parseFloatJs v = none ∨ ∃ q, parseFloatJs v = some q ∧ q ≤ 0) →
      handleSizeChange s i d v st = st) := by
  constructor
  · intro q hp hq
    rw [handleSizeChange_success s i d v st q hp hq]
    refine ⟨?_, ?_, ?_, ?_, ?_, ?_⟩
    · intro h
      rw [ImageState.side_update_same, jsMapIdxFrom_get?, List.get?_eq_get h]
      simp
    · intro img
      cases d <;> rfl
    · intro img
      rfl
    · intro img
      rfl
    · intro j hj
      rw [ImageState.side_update_same, jsMapIdxFrom_get?]
      cases (st.side s).get? j <;> simp [hj]
    · exact ImageState.side_update_other st s s.other _ (Eye.other_ne s)
  · exact handleSizeChange_reject s i d v st

/-- Witness for C5: resizing record 1 of the left side of `sampleState`
with the parseable positive value `"30"`. -/
theorem c5_resize_frame_witness :
    parseFloatJs "30" = some 30 ∧
    ((handleSizeChange Eye.left 1 Dimension.width "30" sampleState).side Eye.left).get? 1
      = some (setDim Dimension.width 30 ((sampleState.side Eye.left).get ⟨1, by decide⟩)) :=
  ⟨by decide,
   ((c5_resize_frame Eye.left 1 Dimension.width "30" sampleState).1 30 (by decide)
      (by decide)).1 (by decide)⟩

/-- C6: `remove(side, index)` yields the list with exactly position
`index` deleted, every later record shifted down one place (the take/drop
equation), and the other side untouched; an out-of-bounds index leaves the
whole state unchanged. -/
theorem c6_remove_shift (eye : Eye) (index : ℕ) (st : ImageState) :
    (handleRemoveImage eye index st).side eye
      = (st.side eye).take index ++ (st.side eye).drop (index + 1) ∧
    (handleRemoveImage eye index st).side eye.other = st.side eye.other ∧
    ((st.side eye).length ≤ index → handleRemoveImage eye index st = st) := by
  refine ⟨?_, ?_, ?_⟩
  · unfold handleRemoveImage
    rw [ImageState.side_update_same]
    have h := jsFilterIdxFrom_eq_take_drop index 0 (st.side eye)
    simpa using h
  · exact ImageState.side_update_other st eye eye.other _ (Eye.other_ne eye)
  · intro h
    exact ImageState.update_eq_self st eye _
      (jsFilterIdxFrom_of_ge index 0 (st.side eye) (by omega))

/-- Witness for C6: an in-bounds removal at index 0 of the left side and
an out-of-bounds removal at index 5 of the right side of `sampleState`. -/
theorem c6_remove_shift_witness :
    (handleRemoveImage Eye.left 0 sampleState).side Eye.left
      = (sampleState.side Eye.left).take 0 ++ (sampleState.side Eye.left).drop (0 + 1) ∧
    handleRemoveImage Eye.right 5 sampleState = sampleState :=
  ⟨(c6_remove_shift Eye.left 0 sampleState).1,
   (c6_remove_shift Eye.right 5 sampleState).2.2 (by decide)⟩

/-- C7: an upload whose first file's declared type is not exactly
`image/png` leaves the state unchanged; with type `image/png` and a
successful decode exactly one 25×25 record is appended to the named side
and the other side is unchanged. -/
theorem c7_upload_png_only (eye : Eye) (file : JsFile) (rest : List JsFile)
    (decode : JsFile → Option String) (st : ImageState) :
    (file.type ≠ "image/png" → handleImageUpload eye (file :: rest) decode st = st) ∧
    (file.type = "image/png" → ∀ result, decode file = some result →
      (handleImageUpload eye (file :: rest) decode st).side eye
        = st.side eye ++ [{ url := result, width := 25, height := 25 }] ∧
      (handleImageUpload eye (file :: rest) decode st).side eye.other
        = st.side eye.other) := by
  constructor
  · intro ht
    rw [handleImageUpload_cons, if_pos ht]
  · intro ht result hd
    rw [handleImageUpload_cons, if_neg (not_not_intro ht), hd]
    exact ⟨ImageState.side_update_same st eye _,
           ImageState.side_update_other st eye eye.other _ (Eye.other_ne eye)⟩

/-- Witness for C7: a JPEG upload is ignored; a PNG upload with a
successful decode appends one 25×25 record. -/
theorem c7_upload_png_only_witness :
    handleImageUpload Eye.left [{ type := "image/jpeg", data := "x" }]
        (fun _ => some "u") sampleState = sampleState ∧
    (handleImageUpload Eye.right [{ type := "image/png", data := "x" }]
        (fun _ => some "u") sampleState).side Eye.right
      = sampleState.side Eye.right ++ [{ url := "u", width := 25, height := 25 }] :=
  ⟨(c7_upload_png_only Eye.left { type := "image/jpeg", data := "x" } []
      (fun _ => some "u") sampleState).1 (by decide),
   ((c7_upload_png_only Eye.right { type := "image/png", data := "x" } []
      (fun _ => some "u") sampleState).2 rfl "u" rfl).1⟩

/-- C8: a successful export is named exactly
`print-<PAPER_SIZE>-<DPI>dpi.png` and rasterizes at scale `dpi / 96`;
in particular paper A5 at DPI 150 downloads `print-A5-150dpi.png`. -/
theorem c8_export_filename_scale (p : PaperSize) (d : ℤ) :
    (handleGeneratePNG p d).filename
      = "print-" ++ p.str ++ "-" ++ toString d ++ "dpi.png" ∧
    (handleGeneratePNG p d).scale = (d : ℚ) / 96 ∧
    (handleGeneratePNG p d).scale * 96 = (d : ℚ) ∧
    (handleGeneratePNG PaperSize.A5 150).filename = "print-A5-150dpi.png" := by
  refine ⟨rfl, rfl, ?_, ?_⟩
  · exact div_mul_cancel₀ _ (by norm_num)
  · decide

/-- C9: a resize at an index outside the bounds of the named side leaves
the entire state unchanged, whatever the value string (even one parsing
to a positive number). -/
theorem c9_resize_out_of_bounds (s : Eye) (i : ℕ) (d : Dimension) (v : String)
    (st : ImageState) (h : (st.side s).length ≤ i) :
    handleSizeChange s i d v st = st :=
  handleSizeChange_oob s i d v st h

/-- Witness for C9: index 7 is outside the right side of `sampleState`
(length 1) and `"30"` parses to the positive value 30. -/
theorem c9_resize_out_of_bounds_witness :
    parseFloatJs "30" = some 30 ∧ (0 : ℚ) < 30 ∧
    handleSizeChange Eye.right 7 Dimension.height "30" sampleState = sampleState :=
  ⟨by decide, by decide,
   c9_resize_out_of_bounds Eye.right 7 Dimension.height "30" sampleState (by decide)⟩

/-- C10: an upload event appends at most one record however many files
the selection holds — the handler only ever reads the first file. -/
theorem c10_upload_single_file (eye : Eye) (files : List JsFile)
    (decode : JsFile → Option String) (st : ImageState) :
    handleImageUpload eye files decode st
      = handleImageUpload eye (files.take 1) decode st ∧
    ∀ e : Eye, ((handleImageUpload eye files decode st).side e).length
      ≤ (st.side e).length + 1 := by
  constructor
  · cases files <;> rfl
  · intro e
    rcases handleImageUpload_side_cases eye files decode st e with hc | ⟨r, _, hc⟩
    · rw [hc]
      omega
    · rw [hc]
      simp
